import Mathlib

/-!
# Verification of the `route` path router

Shallow embedding of `route.go` (package `route`): a tree-based URL router
with literal, variable (`:name`) and wildcard (`*`) path segments.

Go in-place mutation is rendered as pure state passing:
* `Router.lookup` takes the environment map and returns the possibly
  updated map together with the result;
* `route` (the registration walk) returns the updated tree; the Go idiom
  `r.Route(p).FuncE(h)` — obtain the terminal node, then mutate it — is
  rendered by a continuation applied at the terminal node
  (`routeModL r parts k`), so that the mutation is reflected in the
  returned tree exactly as pointer aliasing reflects it in Go;
* `log.Panicf` / `panic` become `Except.error`.

Go byte-level string operations (`strings.Split(s, "/")`,
`path[0] == '/'`, `part[1:]`, `strings.Join(parts, "/")`) are rendered at
the character level (`splitOnSlash`, `headIs`, `dropHead`, `joinSlash`);
the delimiters `/`, `:`, `*` are single-byte ASCII, so the two levels
agree on UTF-8 strings.

Handlers are an arbitrary type `H` (`Option H` stands for the nilable Go
function field).
-/

/-- Split a character list on `/`, accumulating the current segment in
reverse — the body of Go `strings.Split(s, "/")`. -/
def splitOnSlashAux : List Char → List Char → List String
  | [], acc => [String.mk acc.reverse]
  | c :: cs, acc =>
    if c = '/' then String.mk acc.reverse :: splitOnSlashAux cs []
    else splitOnSlashAux cs (c :: acc)

/-- Go `strings.Split(s, "/")`: the list of slash-separated segments,
empty segments preserved (`splitOnSlash "" = [""]`). -/
def splitOnSlash (s : String) : List String := splitOnSlashAux s.toList []

/-- Go `strings.Join(parts, "/")`. -/
def joinSlash : List String → String
  | [] => ""
  | [s] => s
  | s :: rest => s ++ "/" ++ joinSlash rest

/-- Go `len(s) > 0 && s[0] == c` for an ASCII character `c`. -/
def headIs (c : Char) (s : String) : Bool :=
  match s.toList with
  | c' :: _ => c' = c
  | [] => false

/-- Go `s[1:]`, used only after `headIs` has checked a one-byte head. -/
def dropHead (s : String) : String := String.mk s.toList.tail

/-- The capture environment, Go `map[string]string`.  Rendered as an
association list with unique keys; `Env.set` is the Go map assignment. -/
abbrev Env : Type := List (String × String)

/-- Go map assignment `env[k] = v`: replace the binding in place when the
key is present, append it otherwise. -/
def Env.set : Env → String → String → Env
  | [], k, v => [(k, v)]
  | (k', v') :: rest, k, v =>
    if k' = k then (k, v) :: rest else (k', v') :: Env.set rest k v

/-- Go map read `env[k]`. -/
def Env.get : Env → String → Option String
  | [], _ => none
  | (k', v') :: rest, k => if k' = k then some v' else Env.get rest k

/-- One node of the matching tree — the Go `Router` struct: the literal
children map `matchers`, the variable child (`varName`, `varRouter`), the
handler of the node itself, and the wildcard child `fallbackRouter`. -/
inductive Router (H : Type) where
  | mk : List (String × Router H) → String → Option (Router H) →
      Option H → Option (Router H) → Router H

/-- The `matchers` field: literal children, keyed by segment. -/
def Router.matchers : Router H → List (String × Router H)
  | .mk m _ _ _ _ => m

/-- The `varName` field. -/
def Router.varName : Router H → String
  | .mk _ n _ _ _ => n

/-- The `varRouter` field. -/
def Router.varRouter : Router H → Option (Router H)
  | .mk _ _ v _ _ => v

/-- The `handler` field. -/
def Router.handler : Router H → Option H
  | .mk _ _ _ h _ => h

/-- The `fallbackRouter` field. -/
def Router.fallbackRouter : Router H → Option (Router H)
  | .mk _ _ _ _ f => f

/-- The zero `Router` value, Go `new(Router)`. -/
def Router.empty : Router H := .mk [] "" none none none

/-- Go map read `r.matchers[s]` (a nil map reads as an empty one). -/
def findMatcher : List (String × Router H) → String → Option (Router H)
  | [], _ => none
  | (k, v) :: rest, s => if k = s then some v else findMatcher rest s

/-- Go map write `r.matchers[s] = c`: replace in place, else append. -/
def setMatcher : List (String × Router H) → String → Router H →
    List (String × Router H)
  | [], s, c => [(s, c)]
  | (k, v) :: rest, s, c =>
    if k = s then (s, c) :: rest else (k, v) :: setMatcher rest s c

/-- `Router.lookup` from `route.go`: walk the tree one segment at a time,
trying the literal child, then the variable child (only for a non-empty
head segment, writing the capture before recursing), then the wildcard
child (writing `*` and returning the handler of the wildcard node itself
without descending).  The environment is threaded through, failed
branches included, exactly as the shared Go map is. -/
def lookupL : Router H → List String → Env → Option H × Env
  | r, [], env => (r.handler, env)
  | r, p :: ps, env =>
    match (match findMatcher r.matchers p with
           | some r2 => lookupL r2 ps env
           | none => (none, env) : Option H × Env) with
    | (some h, env1) => (some h, env1)
    | (none, env1) =>
      match (if p ≠ "" then
               match r.varRouter with
               | some vr => lookupL vr ps (Env.set env1 r.varName p)
               | none => (none, env1)
             else (none, env1) : Option H × Env) with
      | (some h, env2) => (some h, env2)
      | (none, env2) =>
        match r.fallbackRouter with
        | some fb => (fb.handler, Env.set env2 "*" (joinSlash (p :: ps)))
        | none => (none, env2)

/-- `Router.route` from `route.go`, with the terminal-node mutation made
explicit: `routeModL r parts k` walks/extends the tree along `parts` and
applies `k` to the terminal node, returning the updated tree (Go returns
a pointer into the tree and lets the caller mutate through it; `k` is
that deferred mutation).  A `:`-segment descends into the variable child,
erroring on a conflicting non-empty stored name; a `*` segment creates
the wildcard child and stops there, ignoring any remaining parts, exactly
as the early `return r.fallbackRouter` in the Go code. -/
def routeModL : Router H → List String →
    (Router H → Except String (Router H)) → Except String (Router H)
  | r, [], k => k r
  | r, part :: rest, k =>
    if headIs ':' part then
      let name := dropHead part
      if r.varName ≠ "" ∧ name ≠ r.varName then
        .error "overlapping vars"
      else
        match r.varRouter with
        | none =>
          (routeModL Router.empty rest k).map
            (fun vr' => .mk r.matchers name (some vr') r.handler r.fallbackRouter)
        | some vr =>
          (routeModL vr rest k).map
            (fun vr' => .mk r.matchers r.varName (some vr') r.handler r.fallbackRouter)
    else if part = "*" then
      match r.fallbackRouter with
      | some _ => .error "overlapping fallback routes"
      | none =>
        (k Router.empty).map
          (fun fb => .mk r.matchers r.varName r.varRouter r.handler (some fb))
    else
      (routeModL ((findMatcher r.matchers part).getD Router.empty) rest k).map
        (fun c' => .mk (setMatcher r.matchers part c') r.varName r.varRouter
          r.handler r.fallbackRouter)

/-- Path preprocessing of `Router.Route`: strip one leading slash when
present (Go: `if len(path) > 0 && path[0] == '/'`), then split on `/`. -/
def routeSegs (path : String) : List String :=
  splitOnSlash (if headIs '/' path then dropHead path else path)

/-- `Router.Route` with no terminal mutation: the tree after the
registration walk alone. -/
def Router.routeOnly (r : Router H) (path : String) : Except String (Router H) :=
  routeModL r (routeSegs path) .ok

/-- `Router.FuncE` as the terminal-node mutation: panic on a duplicate
handler, else store it. -/
def attachHandler (h : H) (r : Router H) : Except String (Router H) :=
  match r.handler with
  | some _ => .error "duplicate handler"
  | none => .ok (.mk r.matchers r.varName r.varRouter (some h) r.fallbackRouter)

/-- `r.Route(path).FuncE(h)`: walk/extend along `path`, then attach `h`
at the terminal node. -/
def Router.register (r : Router H) (path : String) (h : H) :
    Except String (Router H) :=
  routeModL r (routeSegs path) (attachHandler h)

/-- `Router.lookupPath`: panic (`error`) unless the path starts with `/`,
then split the rest on `/` and run `lookup`. -/
def Router.lookupPath (r : Router H) (path : String) (env : Env) :
    Except String (Option H × Env) :=
  if headIs '/' path then .ok (lookupL r (splitOnSlash (dropHead path)) env)
  else .error "bad path"

/-- Spec-side reading of the literal step of `lookup` at one node: the
result of descending into the literal child for the head segment, or a
failure leaving the environment untouched when no such child exists. -/
def attemptLiteral (r : Router H) (p : String) (ps : List String) (env : Env) :
    Option H × Env :=
  match findMatcher r.matchers p with
  | some r2 => lookupL r2 ps env
  | none => (none, env)

/-- Spec-side reading of the variable step of `lookup` at one node: only
for a non-empty head segment and an existing variable child, write the
capture and descend; otherwise fail leaving the environment untouched. -/
def attemptVariable (r : Router H) (p : String) (ps : List String) (env : Env) :
    Option H × Env :=
  if p ≠ "" then
    match r.varRouter with
    | some vr => lookupL vr ps (Env.set env r.varName p)
    | none => (none, env)
  else (none, env)

/-- Spec-side reading of the wildcard step of `lookup` at one node: when
a wildcard child exists, bind `*` to the rejoined remaining segments and
return the handler of the wildcard child itself, with no descent. -/
def attemptWildcard (r : Router H) (p : String) (ps : List String) (env : Env) :
    Option H × Env :=
  match r.fallbackRouter with
  | some fb => (fb.handler, Env.set env "*" (joinSlash (p :: ps)))
  | none => (none, env)

/-- Spec-side ordered-alternatives combinator: run each attempt in turn,
threading the environment, stopping at the first that yields a handler;
if none does, report no match with the final environment. -/
def tryInOrder : List (Env → Option H × Env) → Env → Option H × Env
  | [], env => (none, env)
  | f :: fs, env =>
    match f env with
    | (some h, env') => (some h, env')
    | (none, env') => tryInOrder fs env'

/-- Mutation-tracking rendering of `Router.lookup`: every call returns
the post-state of its receiver node alongside the result, reconstructing
each node from its fields and the post-states of the children it
descended into (the Go code assigns no field of any node, so no other
change is possible).  Compared against `lookupL` below. -/
def lookupTr : Router H → List String → Env → Router H × (Option H × Env)
  | r, [], env => (r, (r.handler, env))
  | r, p :: ps, env =>
    let lit : List (String × Router H) × (Option H × Env) :=
      match findMatcher r.matchers p with
      | some r2 =>
        let res := lookupTr r2 ps env
        (setMatcher r.matchers p res.1, res.2)
      | none => (r.matchers, (none, env))
    match lit.2 with
    | (some h, env1) =>
      (.mk lit.1 r.varName r.varRouter r.handler r.fallbackRouter, (some h, env1))
    | (none, env1) =>
      let var : Option (Router H) × (Option H × Env) :=
        if p ≠ "" then
          match r.varRouter with
          | some vr =>
            let res := lookupTr vr ps (Env.set env1 r.varName p)
            (some res.1, res.2)
          | none => (r.varRouter, (none, env1))
        else (r.varRouter, (none, env1))
      match var.2 with
      | (some h, env2) =>
        (.mk lit.1 r.varName var.1 r.handler r.fallbackRouter, (some h, env2))
      | (none, env2) =>
        match r.fallbackRouter with
        | some fb =>
          (.mk lit.1 r.varName var.1 r.handler r.fallbackRouter,
            (fb.handler, Env.set env2 "*" (joinSlash (p :: ps))))
        | none =>
          (.mk lit.1 r.varName var.1 r.handler r.fallbackRouter, (none, env2))

/-- One-node unfolding of `lookupL` as ordered alternatives: literal,
then variable, then wildcard, each tried only after the previous failed,
the environment threaded through failed attempts. -/
theorem lookupL_cons (r : Router H) (p : String) (ps : List String) (env : Env) :
    lookupL r (p :: ps) env =
      tryInOrder [attemptLiteral r p ps, attemptVariable r p ps,
        attemptWildcard r p ps] env := by
  simp only [lookupL, tryInOrder, attemptLiteral, attemptVariable, attemptWildcard]
  repeat' split
  all_goals simp_all

/-- Inversion for `Except.map` returning `ok`. -/
theorem except_map_ok {α β : Type} {f : α → β} {e : Except String α} {b : β}
    (h : e.map f = .ok b) : ∃ a, e = .ok a ∧ b = f a := by
  cases e with
  | ok a => exact ⟨a, rfl, by simpa [Except.map] using h.symm⟩
  | error s => simp [Except.map] at h

/-- Reading back a literal child just written. -/
theorem findMatcher_set (m : List (String × Router H)) (s : String) (c : Router H) :
    findMatcher (setMatcher m s c) s = some c := by
  induction m with
  | nil => simp [setMatcher, findMatcher]
  | cons kv rest ih =>
    obtain ⟨k, v⟩ := kv
    by_cases hk : k = s <;> simp [setMatcher, findMatcher, hk, ih]

/-- Writing back the value already stored leaves the map unchanged. -/
theorem setMatcher_self (m : List (String × Router H)) (s : String) (c : Router H)
    (h : findMatcher m s = some c) : setMatcher m s c = m := by
  induction m with
  | nil => simp [findMatcher] at h
  | cons kv rest ih =>
    obtain ⟨k, v⟩ := kv
    by_cases hk : k = s
    · subst hk
      simp [findMatcher] at h
      simp [setMatcher, h]
    · simp [findMatcher, hk] at h
      simp [setMatcher, hk, ih h]

/-- A node equals the rebuild from its own fields. -/
theorem Router.eta (r : Router H) :
    Router.mk r.matchers r.varName r.varRouter r.handler r.fallbackRouter = r := by
  cases r
  rfl

/-- Along a purely literal segment list, a successful registration walk
creates the literal chain and a lookup of the same segments follows it to
the freshly attached handler, never touching the environment. -/
theorem register_lookup_aux (parts : List String)
    (hl : ∀ s ∈ parts, headIs ':' s = false ∧ s ≠ "*") :
    ∀ (r r' : Router H) (h : H),
      routeModL r parts (attachHandler h) = .ok r' →
      ∀ env, lookupL r' parts env = (some h, env) := by
  induction parts with
  | nil =>
    intro r r' h hreg env
    simp only [routeModL, attachHandler] at hreg
    cases hh : r.handler with
    | some h0 => simp [hh] at hreg
    | none =>
      simp [hh] at hreg
      subst hreg
      simp [lookupL, Router.handler]
  | cons p ps ih =>
    intro r r' h hreg env
    obtain ⟨hp, hstar⟩ := hl p (by simp)
    simp only [routeModL, hp, Bool.false_eq_true, if_false, hstar, ite_false] at hreg
    obtain ⟨c', hc', hr'⟩ := except_map_ok hreg
    subst hr'
    simp only [lookupL, Router.matchers, findMatcher_set]
    rw [ih (fun s hs => hl s (by simp [hs])) _ _ _ hc' env]

/-- Claim C1: for every path `p` with a leading slash containing no
variable (`:`-prefixed) and no wildcard (`*`) segments, and every handler
`h`: if registering `h` at `p` (the `Route` walk followed by attaching
`h`) succeeds, then a lookup of `p` returns `h` and an environment equal
to the caller-supplied one — starting from the empty map, it stays
empty. -/
theorem register_then_lookup_literal (p : String) (h : H) (r r' : Router H)
    (hp : headIs '/' p = true)
    (hl : ∀ s ∈ splitOnSlash (dropHead p), headIs ':' s = false ∧ s ≠ "*")
    (hreg : r.register p h = .ok r') :
    r'.lookupPath p [] = .ok (some h, []) := by
  unfold Router.register routeSegs at hreg
  rw [if_pos hp] at hreg
  unfold Router.lookupPath
  rw [if_pos hp]
  exact congrArg Except.ok (register_lookup_aux _ hl _ _ _ hreg [])

/-- Witness for claim C1 at the root path: registering handler `7` at
`/` in the empty router and looking `/` up returns `7` with an empty
capture map. -/
theorem register_then_lookup_literal_witness :
    ((Router.mk [("", .mk [] "" none (some 7) none)] "" none none none :
      Router Nat).lookupPath "/" []) = .ok (some 7, []) :=
  register_then_lookup_literal "/" 7 Router.empty _ (by decide) (by decide) (by rfl)

/-- Claim C2: at every node, a lookup step with a non-empty remaining
segment sequence is exactly the ordered-alternatives search literal →
variable → wildcard, each alternative run only after every earlier one
failed to produce a handler, and the node reporting no match when none
succeeds (`tryInOrder` of the empty list). -/
theorem lookup_tries_alternatives_in_order (r : Router H) (p : String)
    (ps : List String) (env : Env) :
    lookupL r (p :: ps) env =
      tryInOrder [attemptLiteral r p ps, attemptVariable r p ps,
        attemptWildcard r p ps] env :=
  lookupL_cons r p ps env

/-- Claim C3: when the literal and variable alternatives have failed and
a wildcard child exists, lookup binds `*` to the remaining segments
rejoined with `/` and returns the handler field of the wildcard child
itself — for every wildcard child `fb`, whatever its subtree, so no
recursive descent into it takes place. -/
theorem wildcard_branch_terminal (r fb : Router H) (p : String) (ps : List String)
    (env env1 env2 : Env)
    (hlit : attemptLiteral r p ps env = (none, env1))
    (hvar : attemptVariable r p ps env1 = (none, env2))
    (hfb : r.fallbackRouter = some fb) :
    lookupL r (p :: ps) env =
      (fb.handler, Env.set env2 "*" (joinSlash (p :: ps))) := by
  rw [lookupL_cons]
  simp only [tryInOrder, hlit, hvar, attemptWildcard, hfb]
  cases fb.handler <;> rfl

/-- Witness for claim C3: a node with only a wildcard child carrying
handler `5`, looked up with segments `a`, `b`: the result is `5` with
`*` bound to `a/b`. -/
theorem wildcard_branch_terminal_witness :
    lookupL (Router.mk [] "" none none (some (.mk [] "" none (some 5) none)) :
      Router Nat) ["a", "b"] [] = (some 5, [("*", "a/b")]) :=
  wildcard_branch_terminal
    (Router.mk [] "" none none (some (.mk [] "" none (some 5) none)))
    (Router.mk [] "" none (some 5) none) "a" ["b"] [] [] [] rfl rfl rfl

/-- Claim C4: with the segment sequence exhausted, lookup returns exactly
the handler field of the current node with the environment untouched —
succeeding iff a handler is present, wildcard children never consulted —
and concretely, after registering `/static/*`, looking up `/static`
yields the explicit absence value `none`, not an error. -/
theorem exhausted_path_requires_handler :
    (∀ (H : Type) (r : Router H) (env : Env), lookupL r [] env = (r.handler, env)) ∧
    (Router.empty.register "/static/*" (5 : Nat)).bind
      (fun t => t.lookupPath "/static" []) = .ok (none, []) :=
  ⟨fun _ _ _ => rfl, rfl⟩

/-- Claim C5: a variable child never matches an empty head segment — on
an empty head, lookup behaves as if the node had no variable child at
all — and concretely, after registering `/foo/:id`, looking up
`/foo/bar` succeeds with `id` captured as `bar` while looking up `/foo/`
yields no match and writes no capture. -/
theorem variable_skips_empty_segment :
    (∀ (H : Type) (r : Router H) (ps : List String) (env : Env),
      lookupL r ("" :: ps) env =
        lookupL (Router.mk r.matchers r.varName none r.handler r.fallbackRouter)
          ("" :: ps) env) ∧
    (Router.empty.register "/foo/:id" (3 : Nat)).map
      (fun t => (t.lookupPath "/foo/bar" [], t.lookupPath "/foo/" [])) =
      .ok (.ok (some 3, [("id", "bar")]), .ok (none, [])) := by
  refine ⟨fun H r ps env => ?_, rfl⟩
  obtain ⟨m, vn, vrt, hd, fbr⟩ := r
  rfl

/-- Counterexample to claim C6 as stated: registering the variable
segment `:` stores the empty variable name, and a later registration of
`:other` — a different name — at the same node is accepted without any
error, reusing the existing child and keeping the stored name empty,
where the claim demands a fatal failure. -/
theorem var_conflict_claim_counterexample :
    ((Router.empty (H := Nat)).routeOnly "/foo/:").bind
      (fun t => t.routeOnly "/foo/:other") =
      .ok (.mk [("foo", .mk [] "" (some Router.empty) none none)] "" none none none) :=
  rfl

/-- Claim C6 as amended: at a node whose stored variable name is
NON-empty, registering a variable segment with a different name fails
fatally at registration time, and registering the same name again reuses
the existing variable child. -/
theorem var_conflict_nonempty_name (r vr : Router H) (s : String)
    (rest : List String) (k : Router H → Except String (Router H))
    (hn : r.varName ≠ "") (hs : headIs ':' s = true) :
    (dropHead s ≠ r.varName → routeModL r (s :: rest) k = .error "overlapping vars") ∧
    (dropHead s = r.varName → r.varRouter = some vr →
      routeModL r (s :: rest) k = (routeModL vr rest k).map
        (fun v => .mk r.matchers r.varName (some v) r.handler r.fallbackRouter)) := by
  constructor
  · intro hne
    simp [routeModL, hs, hn, hne]
  · intro he hvr
    simp [routeModL, hs, hn, he, hvr]

/-- Witness for amended claim C6: a node with stored variable name `id`
rejects the segment `:other` with the overlapping-vars panic. -/
theorem var_conflict_nonempty_name_witness :
    routeModL (Router.mk ([] : List (String × Router Nat)) "id"
      (some Router.empty) none none) [":other"] .ok = .error "overlapping vars" :=
  (var_conflict_nonempty_name _ Router.empty ":other" [] _
    (by decide) (by decide)).1 (by decide)

/-- Counterexample to claim C7 as stated: registering `/a/*/b` is indeed
accepted, but the wildcard child of `a` is the empty node — it has no
literal child `b` (second conjunct: looking `b` up in its literal map
yields `none`), because the registration walk stops at the `*` segment
and discards the trailing segments. -/
theorem route_wildcard_claim_counterexample :
    (Router.empty (H := Nat)).routeOnly "/a/*/b" =
      .ok (.mk [("a", .mk [] "" none none (some Router.empty))] "" none none none) ∧
    ((Router.empty (H := Nat)).routeOnly "/a/*/b").map
      (fun t => (findMatcher t.matchers "a").map
        (fun a => a.fallbackRouter.map (fun w => findMatcher w.matchers "b"))) =
      .ok (some (some none)) :=
  ⟨rfl, rfl⟩

/-- Claim C7 as amended: registering a path with segments after a `*`
segment is accepted without error, but the trailing segments are
discarded, not appended: for every remainder `rest`, the walk stops at
the newly created (empty) wildcard child, applies the terminal mutation
there, and never inspects `rest`. -/
theorem route_wildcard_ignores_trailing (r : Router H) (rest : List String)
    (k : Router H → Except String (Router H)) (hf : r.fallbackRouter = none) :
    routeModL r ("*" :: rest) k =
      (k Router.empty).map
        (fun fb => .mk r.matchers r.varName r.varRouter r.handler (some fb)) := by
  have h1 : headIs ':' "*" = false := by decide
  simp [routeModL, h1, hf]

/-- Witness for amended claim C7: walking `*`, `b` from the empty router
creates just the wildcard child and drops `b`. -/
theorem route_wildcard_ignores_trailing_witness :
    routeModL (Router.empty : Router Nat) ["*", "b"] .ok =
      .ok (.mk [] "" none none (some Router.empty)) :=
  route_wildcard_ignores_trailing Router.empty ["b"] .ok rfl

/-- Claim C8: with routes `/foo/:id/x` (handler 1) and `/foo/*`
(handler 2), looking up `/foo/bar/y` succeeds through the wildcard with
handler 2, yet the capture map still contains `id` bound to `bar`,
written by the abandoned variable branch and never rolled back, alongside
the wildcard capture `*` bound to `bar/y`. -/
theorem stale_capture_persists :
    ((Router.empty.register "/foo/:id/x" (1 : Nat)).bind
      (fun t => t.register "/foo/*" 2)).map
      (fun t => (t.lookupPath "/foo/bar/y" []).map
        (fun res => (res.1, Env.get res.2 "id", Env.get res.2 "*"))) =
      .ok (.ok (some 2, some "bar", some "bar/y")) :=
  rfl

/-- Claim C9: lookup never mutates the tree.  In the mutation-tracking
rendering `lookupTr`, where every call returns the post-state of its
receiver node, the post-state always equals the input node — all fields,
literal-child maps and children included — and the result and final
capture map agree with `lookupL`; the capture map is the only state
lookup writes. -/
theorem lookup_preserves_tree (path : List String) :
    ∀ (r : Router H) (env : Env), lookupTr r path env = (r, lookupL r path env) := by
  induction path with
  | nil => intro r env; rfl
  | cons p ps ih =>
    intro r env
    obtain ⟨m, vn, vrt, hd, fbr⟩ := r
    simp only [lookupTr, lookupL, Router.matchers, Router.varName, Router.varRouter,
      Router.handler, Router.fallbackRouter]
    cases hf : findMatcher m p with
    | some r2 =>
      simp only [ih, setMatcher_self m p r2 hf]
      rcases hL : lookupL r2 ps env with ⟨ho, e1⟩
      cases ho with
      | some h => rfl
      | none =>
        by_cases hp : p = ""
        · subst hp
          simp only [ne_eq, not_true_eq_false, if_false]
          cases fbr <;> rfl
        · simp only [ne_eq, hp, not_false_eq_true, if_true]
          cases vrt with
          | none => cases fbr <;> rfl
          | some vr =>
            dsimp only
            rcases hV : lookupL vr ps (Env.set e1 vn p) with ⟨ho2, e2⟩
            cases ho2 with
            | some h => rfl
            | none => cases fbr <;> rfl
    | none =>
      simp only [ih]
      by_cases hp : p = ""
      · subst hp
        simp only [ne_eq, not_true_eq_false, if_false]
        cases fbr <;> rfl
      · simp only [ne_eq, hp, not_false_eq_true, if_true]
        cases vrt with
        | none => cases fbr <;> rfl
        | some vr =>
          dsimp only
          rcases hV : lookupL vr ps (Env.set env vn p) with ⟨ho2, e2⟩
          cases ho2 with
          | some h => rfl
          | none => cases fbr <;> rfl

/-- Claim C10: registering the bare variable segment `:` at a fresh node
creates a variable child stored under the empty name (first conjunct),
and at any node whose stored variable name is empty and whose variable
child exists, every later variable registration — whatever its name — is
accepted, reuses the existing child, and discards the new name, the
stored name remaining empty (second conjunct). -/
theorem empty_varname_accepts_any_later_var :
    (∀ (H : Type) (rest : List String) (k : Router H → Except String (Router H)),
      routeModL Router.empty (":" :: rest) k =
        (routeModL Router.empty rest k).map (fun v => .mk [] "" (some v) none none)) ∧
    (∀ (H : Type) (r vr : Router H) (s : String) (rest : List String)
        (k : Router H → Except String (Router H)),
      r.varName = "" → r.varRouter = some vr → headIs ':' s = true →
      routeModL r (s :: rest) k = (routeModL vr rest k).map
        (fun v => .mk r.matchers "" (some v) r.handler r.fallbackRouter)) := by
  constructor
  · intro H rest k
    have h1 : headIs ':' ":" = true := by decide
    have h2 : dropHead ":" = "" := by decide
    simp [routeModL, h1, h2, Router.empty, Router.varName, Router.varRouter,
      Router.matchers, Router.handler, Router.fallbackRouter]
  · intro H r vr s rest k hname hvr hs
    simp [routeModL, hs, hname, hvr]

/-- Witness for claim C10: a node with an empty stored variable name and
an existing variable child accepts the variable segment `:zzz` without
error, reusing the child and keeping the name empty. -/
theorem empty_varname_accepts_any_later_var_witness :
    routeModL (Router.mk ([] : List (String × Router Nat)) ""
      (some Router.empty) none none) [":zzz"] .ok =
      .ok (.mk [] "" (some Router.empty) none none) :=
  empty_varname_accepts_any_later_var.2 Nat _ Router.empty ":zzz" [] .ok
    rfl rfl (by decide)
